import Mathlib

/-!
# Task handlers of the task-management API

A shallow embedding of `api/controllers/taskControllers.go` and
`api/models/taskModel.go`.

The five handlers (`CreateTask`, `CreateTaskBulk`, `GetTasks`, `UpdateTask`,
`DeleteTask`) are functions from an environment, a store and the request
inputs to an outcome: the HTTP response, the store afterwards and the list of
statements sent to the database handle `initializers.DB`.

The database handle is the gorm library, which is not part of the repository.
Its operations are embedded over a list of rows:

* an inline condition given as a string is read the way gorm's
  `Statement.BuildCondition` reads it: a string accepted by `strconv.Atoi` is a
  primary-key value, the empty string is no condition at all, every other
  string is handed to the SQL engine as a raw `WHERE` text;
* every query on `tasks` carries `deleted_at IS NULL` (the model embeds
  `gorm.Model`), `First` orders by primary key and takes one row, `Delete`
  sets `deleted_at` and refuses to run without a condition, `Create` of an
  empty slice fails with `ErrEmptySlice`;
* what lies outside these files is an input, collected in `Env`: the clock
  readings, the next value of the id sequence, the verdict of the schema
  constraints on an insert or update, and the SQL engine's reading of a raw
  condition.
-/

namespace TaskSystem

/-! ## Time values (`time.Time`) -/

/-- Go `time.Time` without a monotonic reading: `sec` is the signed 64-bit
count of seconds since January 1 of year 1, `nsec` the nanoseconds within the
second. -/
structure Time where
  sec : Int
  nsec : Nat
deriving DecidableEq, Repr

/-- Two's-complement wrap of an integer into the signed 64-bit range. -/
def wrap64 (x : Int) : Int := (x + 2 ^ 63) % 2 ^ 64 - 2 ^ 63

/-- Go `unixToInternal`: seconds from year 1 to the Unix epoch. -/
def unixToInternal : Int := 62135596800

/-- Go `time.Unix(sec, 0)`: `Time{0, sec + unixToInternal, Local}` with the
addition done in `int64`. -/
def Time.Unix (sec : Int) : Time := ⟨wrap64 (sec + unixToInternal), 0⟩

/-- Go `Time.Before` for values without a monotonic reading:
`ts < us || ts == us && t.nsec() < u.nsec()`. -/
def Time.Before (t u : Time) : Bool :=
  decide (t.sec < u.sec) || (decide (t.sec = u.sec) && decide (t.nsec < u.nsec))

/-- Go `Time.IsZero`: the zero value of `time.Time`, what a field holds when
it was never assigned. -/
def Time.IsZero (t : Time) : Bool := decide (t.sec = 0) && decide (t.nsec = 0)

/-- The zero value of `time.Time`. -/
def Time.zero : Time := ⟨0, 0⟩

/-! ## The model (`models.Task`) -/

/-- Row of `models.Task`. The first four fields are the embedded `gorm.Model`
(`DeletedAt` is the soft-delete marker, `none` for SQL NULL). The association
fields `User` and `AssignedToGroups` are never assigned by a handler and their
types are declared outside these files; they are left out. -/
structure Task where
  ID : Nat
  CreatedAt : Time
  UpdatedAt : Time
  DeletedAt : Option Time
  Title : String
  Description : String
  CreatedBy : Nat
  ActualStartTime : Time
  ActualEndTime : Time
  Status : Int
deriving DecidableEq, Repr

/-- The zero value `models.Task{}`. -/
def Task.zero : Task :=
  { ID := 0, CreatedAt := Time.zero, UpdatedAt := Time.zero, DeletedAt := none,
    Title := "", Description := "", CreatedBy := 0,
    ActualStartTime := Time.zero, ActualEndTime := Time.zero, Status := 0 }

/-- A row that queries see: its soft-delete marker is not set. -/
def Task.live (t : Task) : Bool := t.DeletedAt.isNone

/-- Content of the database: the ids of the user rows that queries see, and
the rows of `tasks` in storage order, soft-deleted rows included. -/
structure Store where
  users : List Nat
  tasks : List Task
deriving DecidableEq, Repr

/-- What the handlers observe from outside these files. -/
structure Env where
  /-- Value of the first `time.Now()` in `CreateTask`, as the column
  `actual_start_time` keeps it. -/
  startNow : Time
  /-- Value of the second `time.Now()` in `CreateTask`, as the column
  `actual_end_time` keeps it. -/
  endNow : Time
  /-- Clock reading gorm stamps on `CreatedAt`, `UpdatedAt`, `DeletedAt`. -/
  dbNow : Time
  /-- Next value of the id sequence of `tasks`. -/
  nextID : Nat
  /-- Verdict of the schema constraints (not null, the foreign key to the
  users, as the migration outside these files declares them) on an insert or
  an update of row values; `true` when the statement is accepted. -/
  accept : Bool
  /-- The SQL engine on a raw `WHERE` text: `none` when the text is rejected,
  otherwise the row predicate it denotes. -/
  rawWhere : String → Option (Task → Bool)

/-! ## Responses -/

/-- Body of a response: the `gin.H` maps and arrays the handlers send. -/
inductive Payload where
  /-- The map with the single key "error". -/
  | error (msg : String)
  /-- The map with the single key "message". -/
  | message (msg : String)
  /-- A JSON array of tasks. -/
  | tasks (ts : List Task)
  /-- The map with the keys "message" and "task". -/
  | messageTask (msg : String) (task : Task)
  /-- No body: the reply of the `Recovery` middleware of `gin.Default()`
  after a handler has panicked. -/
  | recovered
deriving DecidableEq, Repr

/-- HTTP response: status code and body. -/
structure Response where
  status : Nat
  payload : Payload
deriving DecidableEq, Repr

/-- Statements a handler sends to `initializers.DB`. -/
inductive DbCall where
  | first
  | find
  | create
  | createBatch
  | save
  | delete
deriving DecidableEq, Repr

/-- Result of a handler: the response, the store afterwards and the
statements sent, in order. -/
structure Outcome where
  resp : Response
  store : Store
  calls : List DbCall
deriving DecidableEq, Repr

/-! ## The database handle -/

/-- Errors of the database handle. -/
inductive DbError where
  | recordNotFound
  | emptySlice
  | missingWhereClause
  | rejected
  | badSQL
deriving DecidableEq, Repr

/-- Value of a non-empty run of decimal digits; `none` on any other
character or on the empty run. -/
def digitsValue : List Char → Option Nat
  | [] => none
  | cs => cs.foldl (fun acc c =>
      match acc with
      | none => none
      | some n => if c.isDigit then some (n * 10 + (c.toNat - 48)) else none) (some 0)

/-- Go `strconv.Atoi`: an optional sign, then decimal digits, the value
within the signed 64-bit range. -/
def atoi (s : String) : Option Int :=
  let signed : Option Int :=
    match s.toList with
    | '-' :: ds => (digitsValue ds).map (fun n => - (n : Int))
    | '+' :: ds => (digitsValue ds).map (fun n => (n : Int))
    | ds => (digitsValue ds).map (fun n => (n : Int))
  match signed with
  | some v => if - 2 ^ 63 ≤ v ∧ v < 2 ^ 63 then some v else none
  | none => none

/-- Reading of an inline condition. -/
inductive Cond where
  /-- No condition. -/
  | all
  /-- Primary key equal to the value. -/
  | pk (v : Int)
  /-- Raw `WHERE` text. -/
  | raw (sql : String)
deriving DecidableEq, Repr

/-- How gorm reads a single string passed as inline condition
(`BuildCondition`): a number is a primary key, the empty string adds no
condition, any other string is raw SQL. -/
def inlineCond (s : String) : Cond :=
  match atoi s with
  | some v => Cond.pk v
  | none => if s = "" then Cond.all else Cond.raw s

/-- Row predicate of a condition, `badSQL` when the engine rejects a raw
text. -/
def Cond.eval (env : Env) : Cond → Except DbError (Task → Bool)
  | Cond.all => Except.ok (fun _ => true)
  | Cond.pk v => Except.ok (fun t => decide ((t.ID : Int) = v))
  | Cond.raw sql =>
    match env.rawWhere sql with
    | some p => Except.ok p
    | none => Except.error DbError.badSQL

/-- The row of least id, the earliest stored among equals. -/
def minByID : List Task → Option Task
  | [] => none
  | t :: ts =>
    match minByID ts with
    | none => some t
    | some m => if t.ID ≤ m.ID then some t else some m

/-- The call `DB.First(&user, userID)` with an unsigned id: the user row with
that primary key, `ErrRecordNotFound` when there is none. -/
def firstUser (s : Store) (userID : Nat) : Except DbError Nat :=
  if userID ∈ s.users then Except.ok userID else Except.error DbError.recordNotFound

/-- The call `DB.First(&task, task_id)`: among the live rows that satisfy the
condition the one of least id, `ErrRecordNotFound` when there is none. -/
def firstTask (env : Env) (s : Store) (task_id : String) : Except DbError Task :=
  match (inlineCond task_id).eval env with
  | Except.error e => Except.error e
  | Except.ok p =>
    match minByID (s.tasks.filter (fun t => t.live && p t)) with
    | some t => Except.ok t
    | none => Except.error DbError.recordNotFound

/-- The call `DB.Find(&tasks, task_id)`: the live rows that satisfy the
condition, in storage order; no row is not an error. -/
def findTasks (env : Env) (s : Store) (task_id : String) : Except DbError (List Task) :=
  match (inlineCond task_id).eval env with
  | Except.error e => Except.error e
  | Except.ok p => Except.ok (s.tasks.filter (fun t => t.live && p t))

/-- The row gorm inserts for a value: a zero primary key is drawn from the
sequence, zero `CreatedAt` and `UpdatedAt` are stamped. -/
def stamp (env : Env) (id : Nat) (t : Task) : Task :=
  { t with
    ID := if t.ID = 0 then id else t.ID
    CreatedAt := if t.CreatedAt.IsZero then env.dbNow else t.CreatedAt
    UpdatedAt := if t.UpdatedAt.IsZero then env.dbNow else t.UpdatedAt }

/-- The call `DB.Create(&newTask)`: one row appended, or the insert
rejected and nothing stored. -/
def createTask (env : Env) (s : Store) (t : Task) : Except DbError Store :=
  if env.accept then
    Except.ok { s with tasks := s.tasks ++ [stamp env env.nextID t] }
  else Except.error DbError.rejected

/-- The rows of a batch, ids drawn consecutively from `id`. -/
def stampAll (env : Env) : Nat → List Task → List Task
  | _, [] => []
  | id, t :: ts => stamp env id t :: stampAll env (id + 1) ts

/-- The call `DB.Create(&tasks)` on a slice: `ErrEmptySlice` for a slice of
length zero, otherwise one insert statement for all rows, accepted or
rejected as a whole. -/
def createTasks (env : Env) (s : Store) (ts : List Task) : Except DbError Store :=
  match ts with
  | [] => Except.error DbError.emptySlice
  | _ :: _ =>
    if env.accept then
      Except.ok { s with tasks := s.tasks ++ stampAll env env.nextID ts }
    else Except.error DbError.rejected

/-- The call `DB.Save(&task)` on a row fetched before: every column of the
live row with that primary key is overwritten and `UpdatedAt` is stamped, on
the row and on the value. Returns the store and the value. -/
def saveTask (env : Env) (s : Store) (t : Task) : Except DbError (Store × Task) :=
  if env.accept then
    let saved : Task := { t with UpdatedAt := env.dbNow }
    Except.ok
      ({ s with tasks := s.tasks.map (fun r => if r.ID = t.ID ∧ r.live then saved else r) },
       saved)
  else Except.error DbError.rejected

/-- The call `DB.Delete(&models.Task{}, task_id)`: soft delete, the marker of
every live row that satisfies the condition is set to the clock reading; the
statement is refused when the condition is empty. -/
def deleteTasks (env : Env) (s : Store) (task_id : String) : Except DbError Store :=
  match inlineCond task_id with
  | Cond.all => Except.error DbError.missingWhereClause
  | c =>
    match c.eval env with
    | Except.error e => Except.error e
    | Except.ok p =>
      Except.ok { s with tasks := s.tasks.map (fun r =>
        if r.live && p r then { r with DeletedAt := some env.dbNow } else r) }

/-! ## Request inputs -/

/-- The body struct of `CreateTask`. -/
structure CreateBody where
  Title : String
  Description : String
deriving DecidableEq, Repr

/-- The body struct of `UpdateTask`; the three numbers are `int64`. -/
structure UpdateBody where
  Title : String
  Description : String
  ActualStartTime : Int
  ActualEndTime : Int
  Seconds : Int
deriving DecidableEq, Repr

/-- The call `c.Bind(&body)` in `CreateTask`. The argument is the decoded
request body, `none` when it is missing or cannot be decoded; both fields are
tagged `binding:"required"`, which fails on the empty string. -/
def bindCreate (body : Option CreateBody) : Option CreateBody :=
  match body with
  | none => none
  | some b => if b.Title = "" ∨ b.Description = "" then none else some b

/-- The call `c.Bind(&body)` in `UpdateTask`: no field is required, binding
fails only when the body is missing or cannot be decoded. -/
def bindUpdate (body : Option UpdateBody) : Option UpdateBody := body

/-- One result of `reader.Read()` before the end of input: a record with
`err == nil`, or an error other than `io.EOF`. The reader is used with its
default settings, so besides a quoting error a record whose number of fields
differs from that of the first record read is an error (`ErrFieldCount`) and
arrives here as `failure`. -/
inductive ReadResult where
  | record (fields : List String)
  | failure
deriving DecidableEq, Repr

/-- The multipart field `taskBulkUpload`: absent (`c.FormFile` fails), not
openable (`Open` fails), or a file given by the results of the successive
`reader.Read()` calls up to the end of input, after which every call returns
`io.EOF`. -/
inductive Upload where
  | missing
  | unopenable
  | file (reads : List ReadResult)
deriving DecidableEq, Repr

/-! ## The handlers -/

/-- Handler `CreateTask`. `userID` is `c.GetUint("user_id")`. -/
def CreateTask (env : Env) (s : Store) (userID : Nat) (body : Option CreateBody) : Outcome :=
  match firstUser s userID with
  | Except.error _ => ⟨⟨404, Payload.error "User not found"⟩, s, [DbCall.first]⟩
  | Except.ok _ =>
    match bindCreate body with
    | none => ⟨⟨400, Payload.error "Fields are empty"⟩, s, [DbCall.first]⟩
    | some b =>
      let newTask : Task :=
        { Task.zero with
          Title := b.Title
          Description := b.Description
          CreatedBy := userID
          ActualStartTime := env.startNow
          ActualEndTime := env.endNow }
      match createTask env s newTask with
      | Except.error _ =>
        ⟨⟨400, Payload.error "Error creating task"⟩, s, [DbCall.first, DbCall.create]⟩
      | Except.ok s1 =>
        ⟨⟨200, Payload.message "Task created successfully"⟩, s1, [DbCall.first, DbCall.create]⟩

/-- Result of the read loop of `CreateTaskBulk`. -/
inductive Rows where
  /-- The loop met `io.EOF`: the accumulated slice. -/
  | done (tasks : List Task)
  /-- A read returned an error other than `io.EOF`. -/
  | readError
  /-- An index `row[0]` or `row[1]` was out of range. -/
  | panicked
deriving DecidableEq, Repr

/-- The read loop of `CreateTaskBulk`: `acc` is the slice `tasks` so far. -/
def readRows (userID : Nat) : List ReadResult → List Task → Rows
  | [], acc => Rows.done acc
  | ReadResult.failure :: _, _ => Rows.readError
  | ReadResult.record (title :: description :: _) :: rest, acc =>
    readRows userID rest
      (acc ++ [{ Task.zero with Title := title, Description := description, CreatedBy := userID }])
  | ReadResult.record _ :: _, _ => Rows.panicked

/-- Handler `CreateTaskBulk`. The result of the first read, the header, is
discarded whatever it is. -/
def CreateTaskBulk (env : Env) (s : Store) (userID : Nat) (upload : Upload) : Outcome :=
  match upload with
  | Upload.missing => ⟨⟨400, Payload.error "Failed to get file"⟩, s, []⟩
  | Upload.unopenable => ⟨⟨400, Payload.error "Failed to open file"⟩, s, []⟩
  | Upload.file reads =>
    match readRows userID (reads.drop 1) [] with
    | Rows.readError => ⟨⟨500, Payload.error "Error reading CSV"⟩, s, []⟩
    | Rows.panicked => ⟨⟨500, Payload.recovered⟩, s, []⟩
    | Rows.done tasks =>
      match createTasks env s tasks with
      | Except.error _ =>
        ⟨⟨500, Payload.error "Error inserting tasks into the database"⟩, s, [DbCall.createBatch]⟩
      | Except.ok s1 =>
        ⟨⟨200, Payload.message ("Successfully uploaded " ++ toString tasks.length ++ " tasks")⟩,
          s1, [DbCall.createBatch]⟩

/-- Handler `GetTasks`. `task_id` is `c.Query("task_id")`, the empty string
when the parameter is absent. -/
def GetTasks (env : Env) (s : Store) (task_id : String) : Outcome :=
  match findTasks env s task_id with
  | Except.error _ => ⟨⟨400, Payload.error "Error getting tasks"⟩, s, [DbCall.find]⟩
  | Except.ok tasks => ⟨⟨200, Payload.tasks tasks⟩, s, [DbCall.find]⟩

/-- The four conditional assignments of `UpdateTask` (the field `Seconds` of
the body is read nowhere). -/
def mergeBody (task : Task) (body : UpdateBody) : Task :=
  let task := if body.Title ≠ "" then { task with Title := body.Title } else task
  let task := if body.Description ≠ "" then { task with Description := body.Description } else task
  let task :=
    if body.ActualStartTime ≠ 0 then
      { task with ActualStartTime := Time.Unix body.ActualStartTime }
    else task
  let task :=
    if body.ActualEndTime ≠ 0 then
      { task with ActualEndTime := Time.Unix body.ActualEndTime }
    else task
  task

/-- Handler `UpdateTask`. -/
def UpdateTask (env : Env) (s : Store) (task_id : String) (body : Option UpdateBody) : Outcome :=
  match firstTask env s task_id with
  | Except.error _ => ⟨⟨404, Payload.error "Task not found"⟩, s, [DbCall.first]⟩
  | Except.ok task =>
    match bindUpdate body with
    | none => ⟨⟨400, Payload.error "Fields are empty"⟩, s, [DbCall.first]⟩
    | some b =>
      let task := mergeBody task b
      if !task.ActualStartTime.Before task.ActualEndTime then
        ⟨⟨400, Payload.error "Invalid Start Time cannot be before End Time"⟩, s, [DbCall.first]⟩
      else
        match saveTask env s task with
        | Except.error _ =>
          ⟨⟨400, Payload.error "Error updating task"⟩, s, [DbCall.first, DbCall.save]⟩
        | Except.ok (s1, saved) =>
          ⟨⟨200, Payload.messageTask "Details added successfully" saved⟩, s1,
            [DbCall.first, DbCall.save]⟩

/-- Handler `DeleteTask`. -/
def DeleteTask (env : Env) (s : Store) (task_id : String) : Outcome :=
  match firstTask env s task_id with
  | Except.error _ => ⟨⟨404, Payload.error "Task not found"⟩, s, [DbCall.first]⟩
  | Except.ok _ =>
    match deleteTasks env s task_id with
    | Except.error _ =>
      ⟨⟨400, Payload.error "Error deleting task"⟩, s, [DbCall.first, DbCall.delete]⟩
    | Except.ok s1 =>
      ⟨⟨200, Payload.message "Task deleted successfully"⟩, s1, [DbCall.first, DbCall.delete]⟩

/-! ## Requests and reachable stores -/

/-- A request to one of the five routes of `TaskRoutes`. -/
inductive Request where
  | create (userID : Nat) (body : Option CreateBody)
  | bulk (userID : Nat) (upload : Upload)
  | get (task_id : String)
  | update (task_id : String) (body : Option UpdateBody)
  | delete (task_id : String)

/-- The handler the router runs for a request. -/
def handle (env : Env) (s : Store) : Request → Outcome
  | Request.create userID body => CreateTask env s userID body
  | Request.bulk userID upload => CreateTaskBulk env s userID upload
  | Request.get task_id => GetTasks env s task_id
  | Request.update task_id body => UpdateTask env s task_id body
  | Request.delete task_id => DeleteTask env s task_id

/-- Stores reachable from a store without tasks by handling requests. -/
inductive Reachable : Store → Prop where
  | init (users : List Nat) : Reachable ⟨users, []⟩
  | step {s : Store} (env : Env) (r : Request) : Reachable s → Reachable (handle env s r).store

/-! ## Values for the examples, and the stated properties -/

/-- The concrete SQL engine used in the examples: the text "1=1" holds of
every row, the bare word "abc" names no column and is rejected, as is any
other text. -/
def sampleEngine (sql : String) : Option (Task → Bool) :=
  if sql = "1=1" then some (fun _ => true) else none

/-- An environment for the examples: all three clock readings are the same
instant, the sequence stands at `nextID`, the constraints accept. -/
def sampleEnv (nextID : Nat) : Env :=
  { startNow := Time.Unix 1700000000, endNow := Time.Unix 1700000000,
    dbNow := Time.Unix 1700000000, nextID := nextID, accept := true,
    rawWhere := sampleEngine }

/-- A task as `CreateTask` leaves it when the two clock readings differ by a
minute: id 1, created by user 1. -/
def sampleTask : Task :=
  { ID := 1, CreatedAt := Time.Unix 1700000000, UpdatedAt := Time.Unix 1700000000,
    DeletedAt := none, Title := "A", Description := "B", CreatedBy := 1,
    ActualStartTime := Time.Unix 1700000000, ActualEndTime := Time.Unix 1700000060,
    Status := 0 }

/-- A store for the examples: the users 1 and 2 and the task `sampleTask`. -/
def sampleStore : Store := ⟨[1, 2], [sampleTask]⟩

/-- The task that `CreateTask` stores for user 1 and the body "A"/"B" when
both clock readings are the instant of `sampleEnv` and the sequence stands
at 1. -/
def freshTask : Task :=
  { ID := 1, CreatedAt := Time.Unix 1700000000, UpdatedAt := Time.Unix 1700000000,
    DeletedAt := none, Title := "A", Description := "B", CreatedBy := 1,
    ActualStartTime := Time.Unix 1700000000, ActualEndTime := Time.Unix 1700000000,
    Status := 0 }

/-- A store with the two live tasks 1 and 2. -/
def twoTasks : Store := ⟨[1, 2], [sampleTask, { sampleTask with ID := 2 }]⟩

/-- The invariant on the time fields of a task: when both are set (neither is
the zero time), the start is strictly before the end. -/
def Task.timesOrdered (t : Task) : Bool :=
  t.ActualStartTime.IsZero || t.ActualEndTime.IsZero ||
    t.ActualStartTime.Before t.ActualEndTime

/-- The invariant on a store: it holds of every stored task. -/
def Store.timesOrdered (s : Store) : Prop := ∀ t ∈ s.tasks, t.timesOrdered = true

/-- The value the read loop builds from a record with two columns or more. -/
def recordTask (userID : Nat) (r : List String) : Task :=
  { Task.zero with Title := r.getD 0 "", Description := r.getD 1 "", CreatedBy := userID }

/-- The soft delete of the rows with primary key `id`. -/
def markDeleted (env : Env) (id : Nat) (r : Task) : Task :=
  if r.ID = id ∧ r.live = true then { r with DeletedAt := some env.dbNow } else r

/-! ## Auxiliary facts about the database handle -/

theorem minByID_eq_none {l : List Task} : minByID l = none ↔ l = [] := by
  cases l with
  | nil => simp [minByID]
  | cons t ts =>
    simp only [minByID]
    cases minByID ts with
    | none => simp
    | some m => by_cases h : t.ID ≤ m.ID <;> simp [h]

theorem minByID_mem {l : List Task} {t : Task} (h : minByID l = some t) : t ∈ l := by
  induction l generalizing t with
  | nil => simp [minByID] at h
  | cons a as ih =>
    simp only [minByID] at h
    cases hm : minByID as with
    | none =>
      rw [hm] at h
      simp only [Option.some.injEq] at h
      simp [h]
    | some m =>
      rw [hm] at h
      by_cases hle : a.ID ≤ m.ID
      · simp only [hle, if_true, Option.some.injEq] at h
        simp [h]
      · simp only [hle, if_false, Option.some.injEq] at h
        exact List.mem_cons_of_mem _ (h ▸ ih hm)

theorem inlineCond_of_atoi {task_id : String} {v : Int} (h : atoi task_id = some v) :
    inlineCond task_id = Cond.pk v := by
  simp [inlineCond, h]

theorem inlineCond_empty : inlineCond "" = Cond.all := by
  decide

/-- A fetched row is a live row of the store. -/
theorem firstTask_mem {env : Env} {s : Store} {task_id : String} {task : Task}
    (h : firstTask env s task_id = Except.ok task) : task ∈ s.tasks ∧ task.live = true := by
  unfold firstTask at h
  split at h
  · cases h
  · split at h
    · rename_i t ht
      cases h
      have hm := minByID_mem ht
      simp only [List.mem_filter, Bool.and_eq_true] at hm
      exact ⟨hm.1, hm.2.1⟩
    · cases h

/-! ## UpdateTask -/

theorem mergeBody_ID (task : Task) (body : UpdateBody) : (mergeBody task body).ID = task.ID := by
  unfold mergeBody
  by_cases h1 : body.Title = "" <;> by_cases h2 : body.Description = "" <;>
    by_cases h3 : body.ActualStartTime = 0 <;> by_cases h4 : body.ActualEndTime = 0 <;>
    simp [h1, h2, h3, h4]

/-- The three ways `UpdateTask` ends once the task is fetched and the body
bound. -/
theorem UpdateTask_found (env : Env) (s : Store) (task_id : String) (task : Task)
    (body : UpdateBody) (hfound : firstTask env s task_id = Except.ok task) :
    UpdateTask env s task_id (some body) =
      (if (mergeBody task body).ActualStartTime.Before (mergeBody task body).ActualEndTime
          = false then
        ⟨⟨400, Payload.error "Invalid Start Time cannot be before End Time"⟩, s, [DbCall.first]⟩
      else if env.accept = false then
        ⟨⟨400, Payload.error "Error updating task"⟩, s, [DbCall.first, DbCall.save]⟩
      else
        ⟨⟨200, Payload.messageTask "Details added successfully"
            { mergeBody task body with UpdatedAt := env.dbNow }⟩,
          { s with tasks := s.tasks.map (fun r =>
              if r.ID = task.ID ∧ r.live = true then
                { mergeBody task body with UpdatedAt := env.dbNow }
              else r) },
          [DbCall.first, DbCall.save]⟩) := by
  have hID := mergeBody_ID task body
  simp only [UpdateTask, hfound, bindUpdate]
  by_cases hb : (mergeBody task body).ActualStartTime.Before (mergeBody task body).ActualEndTime
      = false
  · simp [hb]
  · simp only [hb, if_false]
    have hb2 : (mergeBody task body).ActualStartTime.Before
        (mergeBody task body).ActualEndTime = true := by simpa using hb
    by_cases ha : env.accept = false
    · simp [hb2, saveTask, ha]
    · have ha2 : env.accept = true := by simpa using ha
      simp [hb2, saveTask, ha2, hID]

/-- C1. `UpdateTask`, for every task fetched by `First` and every bound body:
an empty title or description in the body leaves the field of the task as it
was and a non-empty one replaces it; an epoch value 0 leaves the time field as
it was and a non-zero value `e` replaces it by `time.Unix(e, 0)`. The merged
task is the one the handler validates, saves and returns: the reply is 400
when its start is not before its end or the save is rejected, and otherwise
200 with the merged task, `UpdatedAt` stamped, which also overwrites the
stored row. -/
theorem UpdateTask_merge (env : Env) (s : Store) (task_id : String) (task : Task)
    (body : UpdateBody) (hfound : firstTask env s task_id = Except.ok task) :
    (mergeBody task body).Title = (if body.Title = "" then task.Title else body.Title) ∧
    (mergeBody task body).Description =
      (if body.Description = "" then task.Description else body.Description) ∧
    (mergeBody task body).ActualStartTime =
      (if body.ActualStartTime = 0 then task.ActualStartTime
       else Time.Unix body.ActualStartTime) ∧
    (mergeBody task body).ActualEndTime =
      (if body.ActualEndTime = 0 then task.ActualEndTime
       else Time.Unix body.ActualEndTime) ∧
    UpdateTask env s task_id (some body) =
      (if (mergeBody task body).ActualStartTime.Before (mergeBody task body).ActualEndTime
          = false then
        ⟨⟨400, Payload.error "Invalid Start Time cannot be before End Time"⟩, s, [DbCall.first]⟩
      else if env.accept = false then
        ⟨⟨400, Payload.error "Error updating task"⟩, s, [DbCall.first, DbCall.save]⟩
      else
        ⟨⟨200, Payload.messageTask "Details added successfully"
            { mergeBody task body with UpdatedAt := env.dbNow }⟩,
          { s with tasks := s.tasks.map (fun r =>
              if r.ID = task.ID ∧ r.live = true then
                { mergeBody task body with UpdatedAt := env.dbNow }
              else r) },
          [DbCall.first, DbCall.save]⟩) := by
  refine ⟨?_, ?_, ?_, ?_, UpdateTask_found env s task_id task body hfound⟩
  · unfold mergeBody
    by_cases h1 : body.Title = "" <;> by_cases h2 : body.Description = "" <;>
      by_cases h3 : body.ActualStartTime = 0 <;> by_cases h4 : body.ActualEndTime = 0 <;>
      simp [h1, h2, h3, h4]
  · unfold mergeBody
    by_cases h1 : body.Title = "" <;> by_cases h2 : body.Description = "" <;>
      by_cases h3 : body.ActualStartTime = 0 <;> by_cases h4 : body.ActualEndTime = 0 <;>
      simp [h1, h2, h3, h4]
  · unfold mergeBody
    by_cases h1 : body.Title = "" <;> by_cases h2 : body.Description = "" <;>
      by_cases h3 : body.ActualStartTime = 0 <;> by_cases h4 : body.ActualEndTime = 0 <;>
      simp [h1, h2, h3, h4]
  · unfold mergeBody
    by_cases h1 : body.Title = "" <;> by_cases h2 : body.Description = "" <;>
      by_cases h3 : body.ActualStartTime = 0 <;> by_cases h4 : body.ActualEndTime = 0 <;>
      simp [h1, h2, h3, h4]

/-- Witness of C1: the stored task 1 and a body that changes the description
and the end time only. -/
theorem UpdateTask_merge_witness :
    firstTask (sampleEnv 2) sampleStore "1" = Except.ok sampleTask ∧
    (mergeBody sampleTask ⟨"", "C", 0, 1700000600, 0⟩).Title = "A" ∧
    (mergeBody sampleTask ⟨"", "C", 0, 1700000600, 0⟩).Description = "C" ∧
    (mergeBody sampleTask ⟨"", "C", 0, 1700000600, 0⟩).ActualStartTime
      = sampleTask.ActualStartTime ∧
    (mergeBody sampleTask ⟨"", "C", 0, 1700000600, 0⟩).ActualEndTime
      = Time.Unix 1700000600 :=
  have h := UpdateTask_merge (sampleEnv 2) sampleStore "1" sampleTask
    ⟨"", "C", 0, 1700000600, 0⟩ rfl
  ⟨rfl, h.1, h.2.1, h.2.2.1, h.2.2.2.1⟩

/-- C2. `UpdateTask`, for every task fetched by `First` and every bound body:
when the merged start time is not strictly before the merged end time the
reply is 400, the only statement sent is the `First` lookup (no `Save`), and
the store is the one before the request. -/
theorem UpdateTask_rejects_unordered (env : Env) (s : Store) (task_id : String) (task : Task)
    (body : UpdateBody) (hfound : firstTask env s task_id = Except.ok task)
    (hnot : (mergeBody task body).ActualStartTime.Before (mergeBody task body).ActualEndTime
      = false) :
    (UpdateTask env s task_id (some body)).resp.status = 400 ∧
    DbCall.save ∉ (UpdateTask env s task_id (some body)).calls ∧
    (UpdateTask env s task_id (some body)).store = s := by
  simp [UpdateTask, hfound, bindUpdate, hnot]

/-- Witness of C2: a body that moves the end of task 1 before its start. -/
theorem UpdateTask_rejects_unordered_witness :
    (UpdateTask (sampleEnv 2) sampleStore "1" (some ⟨"", "", 0, 1600000000, 0⟩)).resp.status
      = 400 ∧
    DbCall.save ∉
      (UpdateTask (sampleEnv 2) sampleStore "1" (some ⟨"", "", 0, 1600000000, 0⟩)).calls ∧
    (UpdateTask (sampleEnv 2) sampleStore "1" (some ⟨"", "", 0, 1600000000, 0⟩)).store
      = sampleStore :=
  UpdateTask_rejects_unordered (sampleEnv 2) sampleStore "1" sampleTask
    ⟨"", "", 0, 1600000000, 0⟩ rfl rfl

/-! ## CreateTask -/

/-- C3. `CreateTask`, for every user id that has a row in the store and every
body with non-empty title and description, when the insert is accepted: the
reply is 200 and the store holds the rows it held before followed by exactly
one new row, whose creator is the user id and whose title and description are
those of the body; the user rows are untouched. -/
theorem CreateTask_inserts_one (env : Env) (s : Store) (userID : Nat) (body : CreateBody)
    (huser : userID ∈ s.users) (htitle : body.Title ≠ "") (hdesc : body.Description ≠ "")
    (haccept : env.accept = true) :
    (CreateTask env s userID (some body)).resp = ⟨200, Payload.message "Task created successfully"⟩ ∧
    (CreateTask env s userID (some body)).store.users = s.users ∧
    (CreateTask env s userID (some body)).store.tasks.length = s.tasks.length + 1 ∧
    ∃ t : Task,
      (CreateTask env s userID (some body)).store.tasks = s.tasks ++ [t] ∧
      t.CreatedBy = userID ∧ t.Title = body.Title ∧ t.Description = body.Description := by
  simp [CreateTask, firstUser, huser, bindCreate, htitle, hdesc, createTask, haccept, stamp]

/-- Witness of C3: user 1 creates the task "A"/"B" in a store with one task. -/
theorem CreateTask_inserts_one_witness :
    (CreateTask (sampleEnv 2) sampleStore 1 (some ⟨"A", "B"⟩)).resp
      = ⟨200, Payload.message "Task created successfully"⟩ ∧
    (CreateTask (sampleEnv 2) sampleStore 1 (some ⟨"A", "B"⟩)).store.tasks.length = 2 :=
  have h := CreateTask_inserts_one (sampleEnv 2) sampleStore 1 ⟨"A", "B"⟩
    (by decide) (by decide) (by decide) rfl
  ⟨h.1, h.2.2.1⟩

/-- C4. `CreateTask`, for every user id without a row in the store and every
body, decodable or not, complete or not: the reply is 404 "User not found",
the store is the one before the request and no insert is sent. The body is not
looked at. -/
theorem CreateTask_unknown_user (env : Env) (s : Store) (userID : Nat)
    (body : Option CreateBody) (huser : userID ∉ s.users) :
    CreateTask env s userID body =
      ⟨⟨404, Payload.error "User not found"⟩, s, [DbCall.first]⟩ := by
  simp [CreateTask, firstUser, huser]

/-- Witness of C4: user 7 has no row; the body is missing. -/
theorem CreateTask_unknown_user_witness :
    CreateTask (sampleEnv 2) sampleStore 7 none =
      ⟨⟨404, Payload.error "User not found"⟩, sampleStore, [DbCall.first]⟩ :=
  CreateTask_unknown_user (sampleEnv 2) sampleStore 7 none (by decide)

/-! ## CreateTaskBulk -/

theorem readRows_records (userID : Nat) (rows : List (List String))
    (hcols : ∀ r ∈ rows, 2 ≤ r.length) (acc : List Task) :
    readRows userID (rows.map ReadResult.record) acc
      = Rows.done (acc ++ rows.map (recordTask userID)) := by
  induction rows generalizing acc with
  | nil => simp [readRows]
  | cons r rs ih =>
    have hr : 2 ≤ r.length := hcols r (List.mem_cons_self _ _)
    have hrs : ∀ r ∈ rs, 2 ≤ r.length := fun x hx => hcols x (List.mem_cons_of_mem _ hx)
    match r, hr with
    | title :: description :: more, _ =>
      simp only [List.map_cons, readRows]
      rw [ih hrs]
      simp [recordTask]

theorem readRows_failure (userID : Nat) (rest : List ReadResult)
    (hfail : ReadResult.failure ∈ rest) (acc : List Task) :
    readRows userID rest acc = Rows.readError ∨ readRows userID rest acc = Rows.panicked := by
  induction rest generalizing acc with
  | nil => simp at hfail
  | cons r rs ih =>
    cases r with
    | failure => simp [readRows]
    | record fields =>
      have hrs : ReadResult.failure ∈ rs := by simpa using hfail
      match fields with
      | [] => simp [readRows]
      | [_] => simp [readRows]
      | title :: description :: more =>
        simp only [readRows]
        exact ih hrs _

theorem stampAll_length (env : Env) (id : Nat) (ts : List Task) :
    (stampAll env id ts).length = ts.length := by
  induction ts generalizing id with
  | nil => simp [stampAll]
  | cons t ts ih => simp [stampAll, ih]

theorem stampAll_getElem? (env : Env) (id : Nat) (ts : List Task) (i : Nat) :
    (stampAll env id ts)[i]? = ts[i]?.map (stamp env (id + i)) := by
  induction ts generalizing id i with
  | nil => simp [stampAll]
  | cons t ts ih =>
    cases i with
    | zero => simp [stampAll]
    | succ j =>
      have hid : id + 1 + j = id + (j + 1) := by omega
      simp only [stampAll, List.getElem?_cons_succ, ih, hid]

/-- C5, amended. `CreateTaskBulk`, for every upload made of a first read (the
header, whatever it holds) followed by N ≥ 1 records of two columns or more,
when the batch insert is accepted: the reply is 200 with the message
"Successfully uploaded N tasks", a single batch insert is sent, and the store
holds the rows it held before followed by exactly N new rows, the i-th of
which has column 0 of the i-th record as title, column 1 as description and
the uploading user as creator. -/
theorem CreateTaskBulk_inserts_rows (env : Env) (s : Store) (userID : Nat)
    (header : ReadResult) (rows : List (List String))
    (hrows : rows ≠ []) (hcols : ∀ r ∈ rows, 2 ≤ r.length) (haccept : env.accept = true) :
    (CreateTaskBulk env s userID (Upload.file (header :: rows.map ReadResult.record))).resp
      = ⟨200, Payload.message
          ("Successfully uploaded " ++ toString rows.length ++ " tasks")⟩ ∧
    (CreateTaskBulk env s userID (Upload.file (header :: rows.map ReadResult.record))).calls
      = [DbCall.createBatch] ∧
    ∃ inserted : List Task,
      (CreateTaskBulk env s userID
        (Upload.file (header :: rows.map ReadResult.record))).store.tasks
        = s.tasks ++ inserted ∧
      inserted.length = rows.length ∧
      ∀ (i : Nat) (r : List String), rows[i]? = some r →
        ∃ t : Task, inserted[i]? = some t ∧ r[0]? = some t.Title ∧
          r[1]? = some t.Description ∧ t.CreatedBy = userID := by
  have hread := readRows_records userID rows hcols []
  simp only [List.nil_append] at hread
  obtain ⟨r0, rs, hrs⟩ := List.exists_cons_of_ne_nil hrows
  have hmap : rows.map (recordTask userID)
      = recordTask userID r0 :: rs.map (recordTask userID) := by simp [hrs]
  have hlen : (rows.map (recordTask userID)).length = rows.length := by simp
  have hout : CreateTaskBulk env s userID (Upload.file (header :: rows.map ReadResult.record))
      = ⟨⟨200, Payload.message
            ("Successfully uploaded " ++ toString rows.length ++ " tasks")⟩,
          { s with tasks := s.tasks ++ stampAll env env.nextID (rows.map (recordTask userID)) },
          [DbCall.createBatch]⟩ := by
    simp only [CreateTaskBulk, List.drop_succ_cons, List.drop_zero, hread]
    rw [← hlen, hmap]
    simp [createTasks, haccept]
  rw [hout]
  refine ⟨rfl, rfl, stampAll env env.nextID (rows.map (recordTask userID)), rfl, ?_, ?_⟩
  · simp [stampAll_length]
  · intro i r hi
    have h2 : 2 ≤ r.length := hcols r (List.getElem?_mem hi)
    refine ⟨stamp env (env.nextID + i) (recordTask userID r), ?_, ?_, ?_, ?_⟩
    · simp [stampAll_getElem?, List.getElem?_map, hi]
    · match r, h2 with
      | title :: description :: more, _ => simp [stamp, recordTask]
    · match r, h2 with
      | title :: description :: more, _ => simp [stamp, recordTask]
    · simp [stamp, recordTask]

/-- Witness of C5: a header and two records. -/
theorem CreateTaskBulk_inserts_rows_witness :
    (CreateTaskBulk (sampleEnv 2) sampleStore 1
      (Upload.file (ReadResult.record ["title", "description"] ::
        [["t1", "d1"], ["t2", "d2"]].map ReadResult.record))).resp
      = ⟨200, Payload.message
          ("Successfully uploaded " ++ toString [["t1", "d1"], ["t2", "d2"]].length
            ++ " tasks")⟩ :=
  (CreateTaskBulk_inserts_rows (sampleEnv 2) sampleStore 1
    (ReadResult.record ["title", "description"]) [["t1", "d1"], ["t2", "d2"]]
    (by decide) (by decide) rfl).1

/-- C5 as stated fails. An upload that holds the header and no record (N = 0)
is answered 500 although the constraints accept every insert: the batch insert
of an empty slice is an error. And an upload with one record is answered 500
when the insert is rejected. In both cases no row is stored. -/
theorem CreateTaskBulk_not_always_200 :
    CreateTaskBulk (sampleEnv 2) sampleStore 1
        (Upload.file [ReadResult.record ["title", "description"]])
      = ⟨⟨500, Payload.error "Error inserting tasks into the database"⟩, sampleStore,
          [DbCall.createBatch]⟩ ∧
    CreateTaskBulk { sampleEnv 2 with accept := false } sampleStore 1
        (Upload.file [ReadResult.record ["title", "description"], ReadResult.record ["t", "d"]])
      = ⟨⟨500, Payload.error "Error inserting tasks into the database"⟩, sampleStore,
          [DbCall.createBatch]⟩ :=
  ⟨rfl, rfl⟩

/-- C6. `CreateTaskBulk`, for every upload in which some read after the
header returns an error other than end of input: the reply is 500, no
statement is sent to the database (the batch insert is not invoked) and the
store is the one before the request, whatever was read before the error. -/
theorem CreateTaskBulk_read_error (env : Env) (s : Store) (userID : Nat)
    (header : ReadResult) (rest : List ReadResult) (hfail : ReadResult.failure ∈ rest) :
    (CreateTaskBulk env s userID (Upload.file (header :: rest))).resp.status = 500 ∧
    (CreateTaskBulk env s userID (Upload.file (header :: rest))).calls = [] ∧
    (CreateTaskBulk env s userID (Upload.file (header :: rest))).store = s := by
  simp only [CreateTaskBulk, List.drop_succ_cons, List.drop_zero]
  rcases readRows_failure userID rest hfail [] with h | h <;> simp [h]

/-- Witness of C6: two good records, then a read error, then a good record. -/
theorem CreateTaskBulk_read_error_witness :
    (CreateTaskBulk (sampleEnv 2) sampleStore 1 (Upload.file
      (ReadResult.record ["title", "description"] ::
        [ReadResult.record ["t1", "d1"], ReadResult.record ["t2", "d2"], ReadResult.failure,
          ReadResult.record ["t3", "d3"]]))).store = sampleStore :=
  (CreateTaskBulk_read_error (sampleEnv 2) sampleStore 1
    (ReadResult.record ["title", "description"])
    [ReadResult.record ["t1", "d1"], ReadResult.record ["t2", "d2"], ReadResult.failure,
      ReadResult.record ["t3", "d3"]] (by decide)).2.2

/-! ## DeleteTask and GetTasks -/

theorem filter_live_markDeleted (env : Env) (id : Nat) (l : List Task) :
    (l.map (markDeleted env id)).filter (fun r => r.live)
      = l.filter (fun r => r.live && decide (r.ID ≠ id)) := by
  have hpoint : ∀ r : Task,
      (markDeleted env id r).live = (r.live && decide (r.ID ≠ id)) := by
    intro r
    by_cases hi : r.ID = id
    · cases hd : r.DeletedAt <;> simp [markDeleted, Task.live, hi, hd]
    · simp [markDeleted, hi]
  have hkeep : ∀ r : Task, (r.live && decide (r.ID ≠ id)) = true → markDeleted env id r = r := by
    intro r hr
    have hne : r.ID ≠ id := by
      simp only [Bool.and_eq_true, decide_eq_true_eq] at hr
      exact hr.2
    simp [markDeleted, hne]
  induction l with
  | nil => simp
  | cons r rs ih =>
    simp only [List.map_cons, List.filter_cons, ih, hpoint]
    by_cases hr : (r.live && decide (r.ID ≠ id)) = true
    · simp only [hr, if_true, hkeep r hr]
    · simp only [hr]
      rfl

theorem firstTask_pk_found (env : Env) (s : Store) (task_id : String) (id : Nat) (t : Task)
    (hid : atoi task_id = some (id : Int)) (hmem : t ∈ s.tasks) (htid : t.ID = id)
    (hlive : t.live = true) : ∃ u, firstTask env s task_id = Except.ok u := by
  simp only [firstTask, inlineCond_of_atoi hid, Cond.eval]
  cases hm : minByID (s.tasks.filter (fun r => r.live && decide ((r.ID : Int) = (id : Int)))) with
  | some u => exact ⟨u, rfl⟩
  | none =>
    rw [minByID_eq_none] at hm
    have : t ∈ s.tasks.filter (fun r => r.live && decide ((r.ID : Int) = (id : Int))) := by
      simp [List.mem_filter, hmem, hlive, htid]
    rw [hm] at this
    simp at this

theorem firstTask_pk_absent (env : Env) (s : Store) (task_id : String) (id : Nat)
    (hid : atoi task_id = some (id : Int))
    (habsent : ∀ r ∈ s.tasks, r.live = true → r.ID ≠ id) :
    firstTask env s task_id = Except.error DbError.recordNotFound := by
  simp only [firstTask, inlineCond_of_atoi hid, Cond.eval]
  have hnil : s.tasks.filter (fun r => r.live && decide ((r.ID : Int) = (id : Int))) = [] := by
    rw [List.filter_eq_nil_iff]
    intro r hr
    by_cases hl : r.live = true
    · simp [hl, habsent r hr hl]
    · simp [hl]
  rw [hnil]
  rfl

theorem deleteTasks_pk (env : Env) (s : Store) (task_id : String) (id : Nat)
    (hid : atoi task_id = some (id : Int)) :
    deleteTasks env s task_id
      = Except.ok { s with tasks := s.tasks.map (markDeleted env id) } := by
  simp only [deleteTasks, inlineCond_of_atoi hid, Cond.eval]
  congr 2
  apply List.map_congr_left
  intro r _
  by_cases hl : r.live = true <;> by_cases hi : r.ID = id <;> simp [markDeleted, hl, hi]

theorem findTasks_empty (env : Env) (s : Store) :
    findTasks env s "" = Except.ok (s.tasks.filter (fun r => r.live)) := by
  simp [findTasks, inlineCond_empty, Cond.eval]

/-- C7. `DeleteTask` followed by `GetTasks`, for every store and every
`task_id` that is the decimal form of an id. When a live row has the id:
`DeleteTask` answers 200; the store afterwards has the same rows in the same
order, the rows with that id carrying the soft-delete marker and otherwise
their old fields, every other row as before; and `GetTasks` without `task_id`
then answers 200 with the live rows of other ids, so the deleted task is not
listed and every other task that was live still is. When no live row has the
id: `DeleteTask` answers 404 and the store is as before. -/
theorem DeleteTask_soft_deletes (env env2 : Env) (s : Store) (task_id : String) (id : Nat)
    (hid : atoi task_id = some (id : Int)) :
    (∀ t ∈ s.tasks, t.ID = id → t.live = true →
      (DeleteTask env s task_id).resp = ⟨200, Payload.message "Task deleted successfully"⟩ ∧
      (DeleteTask env s task_id).store.users = s.users ∧
      (DeleteTask env s task_id).store.tasks = s.tasks.map (fun r =>
          if r.ID = id ∧ r.live = true then { r with DeletedAt := some env.dbNow } else r) ∧
      { t with DeletedAt := some env.dbNow } ∈ (DeleteTask env s task_id).store.tasks ∧
      (GetTasks env2 (DeleteTask env s task_id).store "").resp
        = ⟨200, Payload.tasks (s.tasks.filter (fun r => r.live && decide (r.ID ≠ id)))⟩ ∧
      t ∉ s.tasks.filter (fun r => r.live && decide (r.ID ≠ id)) ∧
      (∀ r ∈ s.tasks, r.live = true → r.ID ≠ id →
        r ∈ s.tasks.filter (fun r => r.live && decide (r.ID ≠ id)))) ∧
    ((∀ r ∈ s.tasks, r.live = true → r.ID ≠ id) →
      DeleteTask env s task_id = ⟨⟨404, Payload.error "Task not found"⟩, s, [DbCall.first]⟩) := by
  constructor
  · intro t hmem htid hlive
    obtain ⟨u, hu⟩ := firstTask_pk_found env s task_id id t hid hmem htid hlive
    have hout : DeleteTask env s task_id
        = ⟨⟨200, Payload.message "Task deleted successfully"⟩,
            { s with tasks := s.tasks.map (markDeleted env id) },
            [DbCall.first, DbCall.delete]⟩ := by
      simp [DeleteTask, hu, deleteTasks_pk env s task_id id hid]
    rw [hout]
    refine ⟨rfl, rfl, rfl, ?_, ?_, ?_, ?_⟩
    · apply List.mem_map.mpr
      exact ⟨t, hmem, by simp [markDeleted, htid, hlive]⟩
    · simp only [GetTasks, findTasks_empty, filter_live_markDeleted]
    · simp [List.mem_filter, htid]
    · intro r hr hl hne
      simp [List.mem_filter, hr, hl, hne]
  · intro habsent
    simp [DeleteTask, firstTask_pk_absent env s task_id id hid habsent]

/-- Witness of C7: task 1 of the sample store is deleted and no longer
listed; its row stays in the store. -/
theorem DeleteTask_soft_deletes_witness :
    atoi "1" = some ((1 : Nat) : Int) ∧
    (DeleteTask (sampleEnv 2) sampleStore "1").resp
      = ⟨200, Payload.message "Task deleted successfully"⟩ ∧
    { sampleTask with DeletedAt := some (sampleEnv 2).dbNow }
      ∈ (DeleteTask (sampleEnv 2) sampleStore "1").store.tasks ∧
    (GetTasks (sampleEnv 3) (DeleteTask (sampleEnv 2) sampleStore "1").store "").resp
      = ⟨200, Payload.tasks []⟩ :=
  have h := (DeleteTask_soft_deletes (sampleEnv 2) (sampleEnv 3) sampleStore "1" 1 rfl).1
    sampleTask (by decide) rfl rfl
  ⟨rfl, h.1, h.2.2.2.1, h.2.2.2.2.1⟩

/-- What `GetTasks` does on the two readings of `task_id` that name ids: the
store is never changed; without `task_id` the reply is 200 with the live rows
in storage order; with the decimal form of an id it is 200 with the live rows
of that id, an empty array when there is none. -/
theorem GetTasks_by_id (env : Env) (s : Store) :
    (∀ task_id : String, (GetTasks env s task_id).store = s) ∧
    (GetTasks env s "").resp = ⟨200, Payload.tasks (s.tasks.filter (fun r => r.live))⟩ ∧
    (∀ (task_id : String) (id : Nat), atoi task_id = some (id : Int) →
      (GetTasks env s task_id).resp
        = ⟨200, Payload.tasks (s.tasks.filter (fun r => r.live && decide (r.ID = id)))⟩) := by
  refine ⟨?_, ?_, ?_⟩
  · intro task_id
    unfold GetTasks
    split <;> rfl
  · simp [GetTasks, findTasks_empty]
  · intro task_id id hid
    simp [GetTasks, findTasks, inlineCond_of_atoi hid, Cond.eval]

/-- C10 at a `task_id` that is not a number. The text goes to the SQL engine
as a raw condition: on the store with the tasks 1 and 2, "abc" is rejected and
the reply is 400, not 200 with an empty array; "1=1" holds of every row and
the reply lists both tasks, not the tasks whose id equals `task_id`. -/
theorem GetTasks_raw_task_id :
    GetTasks (sampleEnv 3) twoTasks "abc"
      = ⟨⟨400, Payload.error "Error getting tasks"⟩, twoTasks, [DbCall.find]⟩ ∧
    GetTasks (sampleEnv 3) twoTasks "1=1"
      = ⟨⟨200, Payload.tasks [sampleTask, { sampleTask with ID := 2 }]⟩, twoTasks,
          [DbCall.find]⟩ :=
  ⟨rfl, rfl⟩

/-! ## The scenario create, then update -/

/-- C8 at equal clock readings. User 1 creates the task "A"/"B" in a store
without tasks and gets 200; both time fields of the new row hold the same
instant. The update of that task with the body that carries only the
description "C" is then answered 400, the row keeps the description "B" and
no `Save` is sent. -/
theorem create_then_update_rejected :
    CreateTask (sampleEnv 1) ⟨[1], []⟩ 1 (some ⟨"A", "B"⟩)
      = ⟨⟨200, Payload.message "Task created successfully"⟩, ⟨[1], [freshTask]⟩,
          [DbCall.first, DbCall.create]⟩ ∧
    freshTask.ActualStartTime = freshTask.ActualEndTime ∧
    UpdateTask (sampleEnv 2) ⟨[1], [freshTask]⟩ "1" (some ⟨"", "C", 0, 0, 0⟩)
      = ⟨⟨400, Payload.error "Invalid Start Time cannot be before End Time"⟩,
          ⟨[1], [freshTask]⟩, [DbCall.first]⟩ :=
  ⟨rfl, rfl, rfl⟩

/-- The scenario of C8 in general: the update of a fetched task with a body
that carries only a description is answered 400 exactly when the stored start
is not before the stored end, and 200 with the old title and the new
description otherwise (the save being accepted). -/
theorem UpdateTask_description_only (env : Env) (s : Store) (task_id : String) (task : Task)
    (description : String) (hfound : firstTask env s task_id = Except.ok task)
    (hdesc : description ≠ "") (haccept : env.accept = true) :
    (UpdateTask env s task_id (some ⟨"", description, 0, 0, 0⟩)).resp =
      (if task.ActualStartTime.Before task.ActualEndTime = false then
        ⟨400, Payload.error "Invalid Start Time cannot be before End Time"⟩
      else
        ⟨200, Payload.messageTask "Details added successfully"
          { task with Description := description, UpdatedAt := env.dbNow }⟩) := by
  have h := UpdateTask_found env s task_id task ⟨"", description, 0, 0, 0⟩ hfound
  have hm : mergeBody task ⟨"", description, 0, 0, 0⟩
      = { task with Description := description } := by
    simp [mergeBody, hdesc]
  rw [h, hm]
  by_cases hb : task.ActualStartTime.Before task.ActualEndTime = false
  · simp [hb]
  · simp [hb, haccept]

/-! ## The order of the two time fields -/

theorem readRows_ordered (userID : Nat) (reads : List ReadResult) (acc ts : List Task)
    (hacc : ∀ t ∈ acc, t.timesOrdered = true)
    (hdone : readRows userID reads acc = Rows.done ts) : ∀ t ∈ ts, t.timesOrdered = true := by
  induction reads generalizing acc with
  | nil =>
    simp only [readRows, Rows.done.injEq] at hdone
    exact hdone ▸ hacc
  | cons r rs ih =>
    cases r with
    | failure => simp [readRows] at hdone
    | record fields =>
      match fields with
      | [] => simp [readRows] at hdone
      | [_] => simp [readRows] at hdone
      | title :: description :: more =>
        simp only [readRows] at hdone
        refine ih _ ?_ hdone
        intro t ht
        rcases List.mem_append.mp ht with h | h
        · exact hacc t h
        · simp only [List.mem_singleton] at h
          subst h
          rfl

theorem stampAll_ordered (env : Env) (id : Nat) (ts : List Task)
    (hts : ∀ t ∈ ts, t.timesOrdered = true) :
    ∀ t ∈ stampAll env id ts, t.timesOrdered = true := by
  induction ts generalizing id with
  | nil => simp [stampAll]
  | cons a as ih =>
    intro t ht
    simp only [stampAll, List.mem_cons] at ht
    rcases ht with h | h
    · subst h
      exact hts a (List.mem_cons_self _ _)
    · exact ih (id + 1) (fun x hx => hts x (List.mem_cons_of_mem _ hx)) t h

theorem createTask_ordered (env : Env) (s s1 : Store) (t : Task)
    (ht : t.timesOrdered = true) (hs : s.timesOrdered)
    (h : createTask env s t = Except.ok s1) : s1.timesOrdered := by
  unfold createTask at h
  by_cases ha : env.accept = true
  · simp only [ha, if_true, Except.ok.injEq] at h
    subst h
    intro u hu
    rcases List.mem_append.mp hu with h1 | h1
    · exact hs u h1
    · simp only [List.mem_singleton] at h1
      subst h1
      simpa [Task.timesOrdered, stamp] using ht
  · simp [ha] at h

theorem createTasks_ordered (env : Env) (s s1 : Store) (ts : List Task)
    (hts : ∀ t ∈ ts, t.timesOrdered = true) (hs : s.timesOrdered)
    (h : createTasks env s ts = Except.ok s1) : s1.timesOrdered := by
  cases ts with
  | nil => simp [createTasks] at h
  | cons a as =>
    simp only [createTasks] at h
    by_cases ha : env.accept = true
    · simp only [ha, if_true, Except.ok.injEq] at h
      subst h
      intro u hu
      rcases List.mem_append.mp hu with h1 | h1
      · exact hs u h1
      · exact stampAll_ordered env env.nextID (a :: as) hts u h1
    · simp [ha] at h

theorem saveTask_ordered (env : Env) (s s1 : Store) (t saved : Task)
    (ht : t.timesOrdered = true) (hs : s.timesOrdered)
    (h : saveTask env s t = Except.ok (s1, saved)) : s1.timesOrdered := by
  unfold saveTask at h
  by_cases ha : env.accept = true
  · simp only [ha, if_true, Except.ok.injEq, Prod.mk.injEq] at h
    obtain ⟨h1, _⟩ := h
    subst h1
    intro u hu
    simp only [List.mem_map] at hu
    obtain ⟨r, hr, hru⟩ := hu
    by_cases hc : r.ID = t.ID ∧ r.live = true
    · simp only [hc, and_self, if_true] at hru
      subst hru
      simpa [Task.timesOrdered] using ht
    · simp only [hc, if_false] at hru
      subst hru
      exact hs r hr
  · simp [ha] at h

theorem deleteTasks_ordered (env : Env) (s s1 : Store) (task_id : String)
    (hs : s.timesOrdered) (h : deleteTasks env s task_id = Except.ok s1) : s1.timesOrdered := by
  have key : ∀ p : Task → Bool, Store.timesOrdered
      { s with tasks := s.tasks.map (fun r =>
        if r.live && p r then { r with DeletedAt := some env.dbNow } else r) } := by
    intro p u hu
    simp only [List.mem_map] at hu
    obtain ⟨r, hr, hru⟩ := hu
    by_cases hc : (r.live && p r) = true
    · simp only [hc, if_true] at hru
      subst hru
      simpa [Task.timesOrdered] using hs r hr
    · simp only [hc] at hru
      subst hru
      exact hs r hr
  unfold deleteTasks at h
  cases hc : inlineCond task_id with
  | all => simp [hc] at h
  | pk v =>
    simp only [hc, Cond.eval, Except.ok.injEq] at h
    exact h ▸ key _
  | raw sql =>
    simp only [hc, Cond.eval] at h
    cases hr : env.rawWhere sql with
    | none => simp [hr] at h
    | some p =>
      simp only [hr, Except.ok.injEq] at h
      exact h ▸ key _

/-- Every handler keeps the order of the time fields of all stored tasks,
provided the first clock reading of `CreateTask` is strictly before its
second. -/
theorem handle_keeps_timesOrdered (env : Env) (s : Store) (r : Request)
    (hclock : env.startNow.Before env.endNow = true) (hs : s.timesOrdered) :
    (handle env s r).store.timesOrdered := by
  cases r with
  | create userID body =>
    simp only [handle, CreateTask]
    cases firstUser s userID with
    | error e => exact hs
    | ok u =>
      cases bindCreate body with
      | none => exact hs
      | some b =>
        simp only
        cases hc : createTask env s { Task.zero with
            Title := b.Title
            Description := b.Description
            CreatedBy := userID
            ActualStartTime := env.startNow
            ActualEndTime := env.endNow } with
        | error e => exact hs
        | ok s1 =>
          exact createTask_ordered env s s1 _ (by simp [Task.timesOrdered, hclock]) hs hc
  | bulk userID upload =>
    simp only [handle, CreateTaskBulk]
    cases upload with
    | missing => exact hs
    | unopenable => exact hs
    | file reads =>
      simp only
      cases hr : readRows userID (List.drop 1 reads) [] with
      | readError => exact hs
      | panicked => exact hs
      | done tasks =>
        have hord := readRows_ordered userID (List.drop 1 reads) [] tasks (by simp) hr
        simp only
        cases hc : createTasks env s tasks with
        | error e => exact hs
        | ok s1 => exact createTasks_ordered env s s1 tasks hord hs hc
  | get task_id =>
    simp only [handle, GetTasks]
    cases findTasks env s task_id <;> exact hs
  | update task_id body =>
    simp only [handle, UpdateTask]
    cases firstTask env s task_id with
    | error e => exact hs
    | ok task =>
      cases body with
      | none => exact hs
      | some b =>
        simp only [bindUpdate]
        by_cases hbefore : (mergeBody task b).ActualStartTime.Before
            (mergeBody task b).ActualEndTime = true
        · simp only [hbefore, Bool.not_true]
          cases hc : saveTask env s (mergeBody task b) with
          | error e => exact hs
          | ok pair =>
            obtain ⟨s1, saved⟩ := pair
            exact saveTask_ordered env s s1 _ saved (by simp [Task.timesOrdered, hbefore]) hs hc
        · have hfalse : (mergeBody task b).ActualStartTime.Before
              (mergeBody task b).ActualEndTime = false := by simpa using hbefore
          simp only [hfalse]
          exact hs
  | delete task_id =>
    simp only [handle, DeleteTask]
    cases firstTask env s task_id with
    | error e => exact hs
    | ok task =>
      simp only
      cases hc : deleteTasks env s task_id with
      | error e => exact hs
      | ok s1 => exact deleteTasks_ordered env s s1 task_id hs hc

/-- C9 at equal clock readings. The store that `CreateTask` leaves when user 1
creates the task "A"/"B" in a store without tasks is reachable, both time
fields of its task are set, and the start is not strictly before the end. -/
theorem reachable_store_unordered :
    Reachable ⟨[1], [freshTask]⟩ ∧
    freshTask.ActualStartTime.IsZero = false ∧ freshTask.ActualEndTime.IsZero = false ∧
    freshTask.ActualStartTime.Before freshTask.ActualEndTime = false ∧
    ¬ Store.timesOrdered ⟨[1], [freshTask]⟩ :=
  ⟨Reachable.step (sampleEnv 1) (Request.create 1 (some ⟨"A", "B"⟩)) (Reachable.init [1]),
    rfl, rfl, rfl, fun h => absurd (h freshTask (List.mem_singleton.mpr rfl)) (by decide)⟩

end TaskSystem
